import Mathlib

/-!
# Verification of the wfdb-rs WFDB decoder against its specification

Shallow embedding of the signal-format decoders, the header parser and the
multi-segment coordinator of the `wfdb` crate (directory `src/`), together
with theorems settling the frozen claims C1..C10.

Conventions of the embedding:
* Bytes are `Nat` values; streams of bytes are `List Nat`.  Wherever the
  source relies on a value being a machine byte, theorems carry the
  hypothesis that every element of the stream is `< 256`.
* Rust bit operations on machine integers are translated arithmetically:
  `x & (2^k - 1)` becomes `x % 2^k`, `x >> k` becomes `x / 2^k`, and
  `hi << k | lo` (with `lo < 2^k`) becomes `hi * 2^k + lo`.
* `i32` values are `Int`; the invalid-sample sentinel `Sample::MIN` is
  `-2^31`.  Saturating addition clamps into `[-2^31, 2^31 - 1]`.
* Fallible operations return `Except String` / `Option`, mirroring
  `Result` / `Option` in the source.
-/

namespace Wfdb

/-- Rust `INVALID_SAMPLE` from `signal/common.rs`: `Sample::MIN`, i.e. `i32::MIN`. -/
def INVALID_SAMPLE : Int := -(2 ^ 31)

/-- Rust `sign_extend` from `signal/common.rs`.  The source tests
`value & sign_bit != 0` (bit `bits - 1` of `value`) and, in the negative
branch, computes `(value | !((1 << bits) - 1)) as i32`; every decoder calls
it with `value` already masked to `bits` bits, where that expression equals
`value - 2^bits`.  The positive branch is `(value & ((1 << bits) - 1)) as i32`. -/
def sign_extend (value : Nat) (bits : Nat) : Int :=
  if value / 2 ^ (bits - 1) % 2 = 1 then
    (value % 2 ^ bits : Int) - 2 ^ bits
  else
    (value % 2 ^ bits : Int)

/-! ## Format 212 (`signal/format212.rs`)

Decoder state: `buffer : Option<u16>` and `is_second : Bool`. -/

/-- State of `Format212Decoder`: the buffered first word and the
`is_second` flag. -/
structure Format212State where
  buffer : Option Nat
  isSecond : Bool
  deriving Repr, DecidableEq

/-- Rust `Format212Decoder::new()`: empty buffer, expecting the first of a pair. -/
def format212New : Format212State := ⟨none, false⟩

/-- Rust `Format212Decoder::reset()`. -/
def format212Reset (_ : Format212State) : Format212State := ⟨none, false⟩

/-- Rust `Format212Decoder::decode_buf`, one output slot at a time.  Arguments:
current state, remaining input bytes, number of free output slots.  Returns
the decoded samples (the source writes them into `output[..count]`), the
final state and the unconsumed bytes. -/
def decode212 : Format212State → List Nat → Nat → List Int × Format212State × List Nat
  | s, bytes, 0 => ([], s, bytes)
  | ⟨some word, true⟩, b :: rest, n + 1 =>
      -- second of a pair: 1 byte; `high_bits = (word >> 12) & 0x0F`,
      -- `raw_value = (high_bits << 8) | low_bits`
      let highBits := word / 2 ^ 12 % 2 ^ 4
      let rawValue := highBits * 2 ^ 8 + b
      let value := sign_extend rawValue 12
      let sample := if value = -(2 ^ 11) then INVALID_SAMPLE else value
      let r := decode212 ⟨none, false⟩ rest n
      (sample :: r.1, r.2)
  | ⟨some _, true⟩, [], _ + 1 =>
      -- `read_exact` hit EOF on a partial pair: clear state, break
      ([], ⟨none, false⟩, [])
  | ⟨none, true⟩, bytes, n + 1 =>
      -- defensive branch in the source: reset state and `continue`
      decode212 ⟨none, false⟩ bytes n
  | ⟨_, false⟩, b0 :: b1 :: rest, n + 1 =>
      -- first of a pair: 2 bytes, `word = u16::from_le_bytes([b0, b1])`,
      -- sample is `sign_extend(word & 0x0FFF, 12)`
      let word := b0 + 2 ^ 8 * b1
      let value := sign_extend (word % 2 ^ 12) 12
      let sample := if value = -(2 ^ 11) then INVALID_SAMPLE else value
      let r := decode212 ⟨some word, true⟩ rest n
      (sample :: r.1, r.2)
  | ⟨buf, false⟩, bytes, _ + 1 =>
      -- fewer than 2 bytes left: EOF, break with the state unchanged
      ([], ⟨buf, false⟩, bytes)

/-- Rust `Format212Decoder::bytes_per_frame(n) = ceil(n/2) * 3`
(`num_signals.div_ceil(2) * 3`). -/
def format212BytesPerFrame (numSignals : Nat) : Nat :=
  (numSignals + 1) / 2 * 3

/-! Spec-side description of format 212 (from the specification's words, for
the refinement statement of C1): per 3-byte triple `(b0, b1, b2)`,
`s0 = signExtend12(((b1 & 0x0F) << 8) | b0)` and
`s1 = signExtend12(((b1 >> 4) << 8) | b2)`, where a decoded value of `-2048`
is replaced by the invalid sentinel.  The spec's sign-extension helper is
`(v ^ (1 << (b-1))) - (1 << (b-1))`. -/

/-- Spec-side sign extension of a `b`-bit two's-complement value
(`(v ^ (1<<(b-1))) - (1<<(b-1))` in the spec's words, here in the spec's
"equivalent bit-set formulation": clear values below the sign bit stay,
values with the sign bit set drop by `2^b`). -/
def specSignExtend (v : Nat) (b : Nat) : Int :=
  if v < 2 ^ (b - 1) then (v : Int) else (v : Int) - 2 ^ b

/-- Spec-side: a decoded 12-bit value, with `-2048` replaced by the invalid
sentinel. -/
def spec212Sample (v : Nat) : Int :=
  let s := specSignExtend v 12
  if s = -2048 then INVALID_SAMPLE else s

/-- Spec-side decoding of a whole format-212 stream: each triple
`(b0, b1, b2)` yields `s0` from `(b1 & 0x0F) << 8 | b0` and `s1` from
`(b1 >> 4) << 8 | b2`. -/
def spec212Stream : List Nat → List Int
  | b0 :: b1 :: b2 :: rest =>
      spec212Sample (b1 % 16 * 2 ^ 8 + b0)
        :: spec212Sample (b1 / 16 * 2 ^ 8 + b2)
        :: spec212Stream rest
  | _ => []

/-- Decoding an empty stream from the fresh state yields no samples. -/
lemma decode212_nil (m : Nat) :
    decode212 format212New [] m = ([], format212New, []) := by
  cases m <;> rfl

/-- On 12-bit-masked values the decoder's `sign_extend` agrees with the
specification's sign-extension helper. -/
lemma sign_extend_eq_spec12 {v : Nat} (h : v < 4096) :
    sign_extend v 12 = specSignExtend v 12 := by
  unfold sign_extend specSignExtend
  split_ifs <;> omega

/-- One full pair step: from the fresh state, two output slots and one
3-byte triple produce the two samples of the claim's formulas. -/
lemma decode212_pair (b0 b1 b2 : Nat) (rest : List Nat) (n : Nat)
    (h0 : b0 < 256) (h1 : b1 < 256) (h2 : b2 < 256) :
    (decode212 format212New (b0 :: b1 :: b2 :: rest) (n + 2)).1 =
      spec212Sample (b1 % 16 * 2 ^ 8 + b0)
        :: spec212Sample (b1 / 16 * 2 ^ 8 + b2)
        :: (decode212 format212New rest n).1 := by
  have hw0 : (b0 + 2 ^ 8 * b1) % 2 ^ 12 = b1 % 16 * 2 ^ 8 + b0 := by omega
  have hw1 : (b0 + 2 ^ 8 * b1) / 2 ^ 12 % 2 ^ 4 = b1 / 16 := by omega
  show (decode212 ⟨none, false⟩ (b0 :: b1 :: b2 :: rest) (n + 1 + 1)).1 = _
  rw [show n + 1 + 1 = n + 2 from rfl]
  simp only [decode212, hw0, hw1]
  rw [sign_extend_eq_spec12 (by omega), sign_extend_eq_spec12 (by omega)]
  simp only [spec212Sample, format212New, INVALID_SAMPLE]
  norm_num

/--
C1.  For the format 212 decoder on an input of exactly `3*k` bytes, decoding
from the fresh state into at least `2*k` output slots yields exactly the
`2*k` samples described by the spec's packing formulas: each triple
`(b0, b1, b2)` gives `s0 = signExtend12((b1 & 0x0F) << 8 | b0)` and
`s1 = signExtend12((b1 >> 4) << 8 | b2)`, with a decoded `-2048` replaced by
the invalid sentinel.
-/
theorem format212_decodes_3k_bytes_to_2k_samples (k : Nat) :
    ∀ (m : Nat) (bytes : List Nat), bytes.length = 3 * k →
      (∀ b ∈ bytes, b < 256) → 2 * k ≤ m →
      (decode212 format212New bytes m).1 = spec212Stream bytes ∧
        (decode212 format212New bytes m).1.length = 2 * k := by
  induction k with
  | zero =>
      intro m bytes hlen _ _
      have : bytes = [] := List.length_eq_zero.mp (by omega)
      subst this
      rw [decode212_nil]
      exact ⟨rfl, rfl⟩
  | succ k ih =>
      intro m bytes hlen hv hm
      obtain ⟨b0, b1, b2, rest, rfl⟩ :
          ∃ a b c t, bytes = a :: b :: c :: t := by
        rcases bytes with _ | ⟨a, _ | ⟨b, _ | ⟨c, t⟩⟩⟩
        · exact absurd hlen (by intro hc; simp at hc)
        · exact absurd hlen (by intro hc; simp at hc; omega)
        · exact absurd hlen (by intro hc; simp at hc; omega)
        · exact ⟨a, b, c, t, rfl⟩
      obtain ⟨n, rfl⟩ : ∃ n, m = n + 2 := ⟨m - 2, by omega⟩
      have hrest : rest.length = 3 * k := by simp at hlen; omega
      have hb0 : b0 < 256 := hv b0 (by simp)
      have hb1 : b1 < 256 := hv b1 (by simp)
      have hb2 : b2 < 256 := hv b2 (by simp)
      have hvr : ∀ b ∈ rest, b < 256 := fun b hb => hv b (by simp [hb])
      obtain ⟨ihEq, ihLen⟩ := ih n rest hrest hvr (by omega)
      rw [decode212_pair b0 b1 b2 rest n hb0 hb1 hb2]
      constructor
      · rw [ihEq]
        rfl
      · simp [ihLen]
        omega

/-- Witness for C1 at `k = 1`: the input `[0x00, 0x08, 0x00]` decodes to
`[invalid, 0]`. -/
theorem format212_decodes_3k_bytes_to_2k_samples_witness :
    ((decode212 format212New [0, 8, 0] 2).1 = spec212Stream [0, 8, 0] ∧
        (decode212 format212New [0, 8, 0] 2).1.length = 2 * 1) ∧
      spec212Stream [0, 8, 0] = [INVALID_SAMPLE, 0] :=
  ⟨format212_decodes_3k_bytes_to_2k_samples 1 2 [0, 8, 0] (by decide)
      (by decide) (by decide),
    by decide⟩

/-! ## Format 8 (`signal/format8.rs`)

Decoder state: `current_value : Sample` (an `i32`).  The constructor takes
`initial_value`; `reset()` sets the accumulator to `0`. -/

/-- Rust `i8::from_le_bytes([b])`: the byte reinterpreted as a signed 8-bit
integer. -/
def i8FromByte (b : Nat) : Int :=
  if b % 256 < 128 then (b % 256 : Int) else (b % 256 : Int) - 256

/-- Rust `i32::saturating_add`, for an `i32` accumulator. -/
def saturatingAddI32 (a b : Int) : Int :=
  max (-(2 ^ 31)) (min (2 ^ 31 - 1) (a + b))

/-- Rust `Format8Decoder::new(initial_value)`: state is the accumulator. -/
def format8New (initialValue : Int) : Int := initialValue

/-- Rust `Format8Decoder::reset()`: `self.current_value = 0`. -/
def format8Reset (_ : Int) : Int := 0

/-- Rust `Format8Decoder::decode_buf`: one difference byte per output slot; the
sample is the saturating accumulation, except that a difference of
`i8::MIN` landing exactly on `-128` is emitted as the invalid sentinel. -/
def decode8 : Int → List Nat → Nat → List Int × Int × List Nat
  | cur, bytes, 0 => ([], cur, bytes)
  | cur, [], _ + 1 => ([], cur, [])
  | cur, b :: rest, n + 1 =>
      let diff := i8FromByte b
      let cur' := saturatingAddI32 cur diff
      let sample := if diff = -128 ∧ cur' = -128 then INVALID_SAMPLE else cur'
      let r := decode8 cur' rest n
      (sample :: r.1, r.2)

/-! Spec-side (amended) description of format 8: the `i`-th output is the
per-step saturating accumulation `aᵢ` with `a₀ = v0` and
`aᵢ = saturating_add(aᵢ₋₁, dᵢ)`, except that when `dᵢ = -128` and
`aᵢ = -128` the invalid sentinel is emitted in its place. -/

/-- Spec-side running decode of format 8 differences. -/
def spec8Stream (v0 : Int) : List Nat → List Int
  | [] => []
  | b :: rest =>
      let d := i8FromByte b
      let a := saturatingAddI32 v0 d
      (if d = -128 ∧ a = -128 then INVALID_SAMPLE else a) :: spec8Stream a rest

/--
Counterexample to C3 as stated.  Two parts:
* format 8 *does* have an invalid-sample marker: with accumulator `0`, the
  single difference byte `0x80` (`-128`) decodes to the invalid sentinel
  `i32::MIN`, not to `saturate_i32(0 + (-128)) = -128`;
* the `i`-th output is the *per-step* saturating accumulation, not
  `saturate_i32` of the exact sum: from `v0 = 2^31 - 1` the differences
  `[+1, -1]` decode to `[2^31 - 1, 2^31 - 2]`, while
  `saturate_i32(v0 + 1 - 1) = 2^31 - 1`.
-/
theorem format8_claim_counterexample :
    ((decode8 0 [128] 1).1 = [INVALID_SAMPLE] ∧
        INVALID_SAMPLE ≠ saturatingAddI32 0 (i8FromByte 128)) ∧
      (decode8 (2 ^ 31 - 1) [1, 255] 2).1 = [2 ^ 31 - 1, 2 ^ 31 - 2] ∧
        (2 ^ 31 - 2 : Int) ≠
          max (-(2 ^ 31)) (min (2 ^ 31 - 1)
            ((2 ^ 31 - 1) + i8FromByte 1 + i8FromByte 255)) := by
  refine ⟨⟨?_, by decide⟩, ?_, by decide⟩ <;> decide

/--
C3 (amended).  For the format 8 decoder with accumulator `v0` and a stream
of `n` difference bytes, the output is the per-step saturating accumulation
`aᵢ = saturating_add(aᵢ₋₁, dᵢ)` (with `a₀ = v0`), except that a step with
`dᵢ = -128` and `aᵢ = -128` emits the invalid sentinel; in particular with
`v0 = 100` and input `[10, 251, 3]` the output is `[110, 105, 108]`.
-/
theorem format8_decode_running_sum (bytes : List Nat) :
    ∀ (v0 : Int) (m : Nat), bytes.length ≤ m →
      (decode8 v0 bytes m).1 = spec8Stream v0 bytes := by
  induction bytes with
  | nil =>
      intro v0 m _
      cases m <;> rfl
  | cons b rest ih =>
      intro v0 m hm
      obtain ⟨n, rfl⟩ : ∃ n, m = n + 1 := ⟨m - 1, by simp at hm; omega⟩
      simp only [decode8, spec8Stream]
      rw [ih _ n (by simp at hm; omega)]

/-- Witness for C3 (amended): `v0 = 100`, input `[10, 251, 3]`, output
`[110, 105, 108]`. -/
theorem format8_decode_running_sum_witness :
    (decode8 100 [10, 251, 3] 3).1 = spec8Stream 100 [10, 251, 3] ∧
      spec8Stream 100 [10, 251, 3] = [110, 105, 108] :=
  ⟨format8_decode_running_sum [10, 251, 3] 100 3 (by decide), by decide⟩

/-! ## Format 16 (`signal/format16.rs`) and Format 0 (`signal/format0.rs`) -/

/-- Rust `Format16Decoder::decode_buf`: 2 bytes per sample, little-endian
two's-complement 16-bit, `i16::MIN` mapped to the invalid sentinel.  The
decoder is stateless. -/
def decode16 : List Nat → Nat → List Int × List Nat
  | bytes, 0 => ([], bytes)
  | b0 :: b1 :: rest, n + 1 =>
      -- `i16::from_le_bytes([b0, b1])`
      let w : Nat := b0 + 2 ^ 8 * b1
      let value : Int :=
        if w % 2 ^ 16 < 2 ^ 15 then ((w % 2 ^ 16 : Nat) : Int)
        else ((w % 2 ^ 16 : Nat) : Int) - 2 ^ 16
      let sample := if value = -(2 ^ 15) then INVALID_SAMPLE else value
      let r := decode16 rest n
      (sample :: r.1, r.2)
  | bytes, _ + 1 => ([], bytes)

/-- Rust `Format0Decoder::decode_buf`: fills the whole output with the invalid
sentinel and consumes no bytes. -/
def decode0 (bytes : List Nat) (n : Nat) : List Int × List Nat :=
  (List.replicate n INVALID_SAMPLE, bytes)

/-! ## Format 310 (`signal/format310.rs`)

State: `buffer : [u16; 2]` and `position : u8` cycling through `0, 1, _`. -/

/-- State of `Format310Decoder`. -/
structure Format310State where
  w0 : Nat
  w1 : Nat
  pos : Nat
  deriving Repr, DecidableEq

/-- Rust `Format310Decoder::new()`. -/
def format310New : Format310State := ⟨0, 0, 0⟩

/-- Rust `Format310Decoder::reset()`. -/
def format310Reset (_ : Format310State) : Format310State := ⟨0, 0, 0⟩

/-- Rust `Format310Decoder::decode_buf`.  Positions 0 and 1 read one 16-bit
little-endian word each and emit `sign_extend((w >> 1) & 0x3FF, 10)`;
position 2 emits the sample assembled from bits 11-15 of both words. -/
def decode310 : Format310State → List Nat → Nat → List Int × Format310State × List Nat
  | s, bytes, 0 => ([], s, bytes)
  | s, bytes, n + 1 =>
      match s.pos, bytes with
      | 0, c0 :: c1 :: rest =>
          let w := c0 + 2 ^ 8 * c1
          let value := sign_extend (w / 2 % 2 ^ 10) 10
          let sample := if value = -(2 ^ 9) then INVALID_SAMPLE else value
          let r := decode310 ⟨w, s.w1, 1⟩ rest n
          (sample :: r.1, r.2)
      | 0, bytes' => ([], s, bytes')
      | 1, c0 :: c1 :: rest =>
          let w := c0 + 2 ^ 8 * c1
          let value := sign_extend (w / 2 % 2 ^ 10) 10
          let sample := if value = -(2 ^ 9) then INVALID_SAMPLE else value
          let r := decode310 ⟨s.w0, w, 2⟩ rest n
          (sample :: r.1, r.2)
      | 1, bytes' => ([], ⟨s.w0, s.w1, 0⟩, bytes')
      | _ + 2, bytes' =>
          -- `high0 = (w0 >> 11) & 0x1F`, `high1 = (w1 >> 11) & 0x1F`,
          -- `raw = (high1 << 5) | high0`
          let high0 := s.w0 / 2 ^ 11 % 2 ^ 5
          let high1 := s.w1 / 2 ^ 11 % 2 ^ 5
          let value := sign_extend (high1 * 2 ^ 5 + high0) 10
          let sample := if value = -(2 ^ 9) then INVALID_SAMPLE else value
          let r := decode310 ⟨s.w0, s.w1, 0⟩ bytes' n
          (sample :: r.1, r.2)

/-- Rust `Format310Decoder::bytes_per_frame(n) = ceil(n/3) * 4`. -/
def format310BytesPerFrame (numSignals : Nat) : Nat :=
  (numSignals + 2) / 3 * 4

/-! ## Format 311 (`signal/format311.rs`)

State: `buffer : u32` and `position : u8` cycling through `0, 1, _`.
`bytes_per_sample` is `None` and, unlike format 310, `bytes_per_frame` is
*not* overridden. -/

/-- State of `Format311Decoder`. -/
structure Format311State where
  buffer : Nat
  pos : Nat
  deriving Repr, DecidableEq

/-- Rust `Format311Decoder::new()`. -/
def format311New : Format311State := ⟨0, 0⟩

/-- Rust `Format311Decoder::reset()`. -/
def format311Reset (_ : Format311State) : Format311State := ⟨0, 0⟩

/-- Rust `Format311Decoder::decode_buf`.  Position 0 reads a 4-byte little-endian
word and emits bits 0-9; positions 1 and 2 emit bits 10-19 and 20-29 of the
buffered word. -/
def decode311 : Format311State → List Nat → Nat → List Int × Format311State × List Nat
  | s, bytes, 0 => ([], s, bytes)
  | s, bytes, n + 1 =>
      match s.pos, bytes with
      | 0, c0 :: c1 :: c2 :: c3 :: rest =>
          let w := c0 + 2 ^ 8 * c1 + 2 ^ 16 * c2 + 2 ^ 24 * c3
          let value := sign_extend (w % 2 ^ 10) 10
          let sample := if value = -(2 ^ 9) then INVALID_SAMPLE else value
          let r := decode311 ⟨w, 1⟩ rest n
          (sample :: r.1, r.2)
      | 0, bytes' => ([], s, bytes')
      | 1, bytes' =>
          let value := sign_extend (s.buffer / 2 ^ 10 % 2 ^ 10) 10
          let sample := if value = -(2 ^ 9) then INVALID_SAMPLE else value
          let r := decode311 ⟨s.buffer, 2⟩ bytes' n
          (sample :: r.1, r.2)
      | _ + 2, bytes' =>
          let value := sign_extend (s.buffer / 2 ^ 20 % 2 ^ 10) 10
          let sample := if value = -(2 ^ 9) then INVALID_SAMPLE else value
          let r := decode311 ⟨s.buffer, 0⟩ bytes' n
          (sample :: r.1, r.2)

/-! ## The decoder trait object (`signal/common.rs`, `signal/formats.rs`)

A tagged variant over the decoders the claims touch, carrying each
decoder's mutable state. -/

/-- A `Box<dyn FormatDecoder>` restricted to the formats the claims are
about. -/
inductive Decoder where
  | d0 : Decoder
  | d8 (current : Int) : Decoder
  | d16 : Decoder
  | d212 (s : Format212State) : Decoder
  | d310 (s : Format310State) : Decoder
  | d311 (s : Format311State) : Decoder
  deriving Repr, DecidableEq

/-- Rust `FormatDecoder::decode_buf` dispatch. -/
def decodeBuf : Decoder → List Nat → Nat → List Int × Decoder × List Nat
  | .d0, bytes, n => let r := decode0 bytes n; (r.1, .d0, r.2)
  | .d8 cur, bytes, n => let r := decode8 cur bytes n; (r.1, .d8 r.2.1, r.2.2)
  | .d16, bytes, n => let r := decode16 bytes n; (r.1, .d16, r.2)
  | .d212 s, bytes, n => let r := decode212 s bytes n; (r.1, .d212 r.2.1, r.2.2)
  | .d310 s, bytes, n => let r := decode310 s bytes n; (r.1, .d310 r.2.1, r.2.2)
  | .d311 s, bytes, n => let r := decode311 s bytes n; (r.1, .d311 r.2.1, r.2.2)

/-- Rust `FormatDecoder::reset` dispatch (format 8 sets the accumulator to 0). -/
def resetD : Decoder → Decoder
  | .d0 => .d0
  | .d8 cur => .d8 (format8Reset cur)
  | .d16 => .d16
  | .d212 s => .d212 (format212Reset s)
  | .d310 s => .d310 (format310Reset s)
  | .d311 s => .d311 (format311Reset s)

/-- Rust `FormatDecoder::bytes_per_sample` dispatch. -/
def bytesPerSampleD : Decoder → Option Nat
  | .d0 => some 0
  | .d8 _ => some 1
  | .d16 => some 2
  | .d212 _ => none
  | .d310 _ => none
  | .d311 _ => none

/-- Rust `FormatDecoder::bytes_per_frame` dispatch: formats 212 and 310 override
it; every other decoder (format 311 included) uses the trait's default
`bytes_per_sample().map(|bps| bps * num_signals)`. -/
def bytesPerFrameD (d : Decoder) (numSignals : Nat) : Option Nat :=
  match d with
  | .d212 _ => some (format212BytesPerFrame numSignals)
  | .d310 _ => some (format310BytesPerFrame numSignals)
  | _ => (bytesPerSampleD d).map (· * numSignals)

/--
C9's theorem: the code evaluated at the claim's failing input.  Because
`Format311Decoder` neither defines `bytes_per_sample` (it returns `None`)
nor overrides `bytes_per_frame`, the trait default yields `None` for every
number of interleaved signals, instead of the claimed `ceil(n/3) * 4`; in
particular seeking is unavailable for interleaved format 311 files, while
the otherwise identical format 310 decoder does return `ceil(n/3) * 4`.
-/
theorem format311_bytes_per_frame_none :
    ∀ (s : Format311State) (n : Nat), bytesPerFrameD (.d311 s) n = none :=
  fun _ _ => rfl

/--
Counterexample to C4 as stated: `reset()` on a format 8 decoder sets the
accumulator to `0`, not to the decoder's `initialValue`.  With
`initialValue = 100`, the fresh decoder decodes `[10]` to `[110]`, but after
`reset()` the same bytes decode to `[10]`.
-/
theorem decoder_reset_claim_counterexample :
    (decodeBuf (resetD (.d8 (format8New 100))) [10] 1).1 = [10] ∧
      (decodeBuf (.d8 (format8New 100)) [10] 1).1 = [110] ∧
      ([10] : List Int) ≠ [110] := by
  refine ⟨by decide, by decide, by decide⟩

/--
C4 (amended).  For the stateful decoders of formats 212, 310 and 311,
`reset()` followed by decoding from the start of the stream gives output
identical to a fresh decoder constructed with the same parameters; for
format 8, `reset()` sets the accumulator to `0`, so its reset-then-decode
agrees with a fresh decoder constructed with `initialValue = 0` (and with a
same-parameters fresh decoder only when `initialValue = 0`).
-/
theorem decoder_reset_equals_fresh :
    (∀ (s : Format212State) (bytes : List Nat) (n : Nat),
        decodeBuf (resetD (.d212 s)) bytes n = decodeBuf (.d212 format212New) bytes n) ∧
      (∀ (s : Format310State) (bytes : List Nat) (n : Nat),
        decodeBuf (resetD (.d310 s)) bytes n = decodeBuf (.d310 format310New) bytes n) ∧
      (∀ (s : Format311State) (bytes : List Nat) (n : Nat),
        decodeBuf (resetD (.d311 s)) bytes n = decodeBuf (.d311 format311New) bytes n) ∧
      (∀ (v0 : Int) (bytes : List Nat) (n : Nat),
        decodeBuf (resetD (.d8 (format8New v0))) bytes n =
          decodeBuf (.d8 (format8New 0)) bytes n) :=
  ⟨fun _ _ _ => rfl, fun _ _ _ => rfl, fun _ _ _ => rfl, fun _ _ _ => rfl⟩

/-! ## Multi-signal (frame) reader (`record/multi_signal_reader.rs`)

A `SignalGroup` owns a decoder and a buffered reader over one signal file;
the file is modelled as its byte contents plus the reader's position.
`MultiSignalReader::new` applies the group's byte offset, so a freshly
constructed group has `pos = initialOffset`. -/

/-- A `SignalGroup`: decoder state, backing file bytes, current byte
position, the byte offset of sample 0, and the member signals' indices into
an output frame. -/
structure SignalGroup where
  decoder : Decoder
  file : List Nat
  pos : Nat
  initialOffset : Nat
  signalIndices : List Nat
  deriving Repr, DecidableEq

/-- One `decode_buf` call on a group's reader: decode `groupWidth` samples
starting at the current position and advance the position by the number of
bytes consumed. -/
def groupRead (g : SignalGroup) : List Int × SignalGroup :=
  let r := decodeBuf g.decoder (g.file.drop g.pos) g.signalIndices.length
  (r.1, { g with decoder := r.2.1, pos := g.file.length - r.2.2.length })

/-- Rust `MultiSignalReader`: the groups, the header's signal count, the current
frame position. -/
structure MSReader where
  groups : List SignalGroup
  numSignals : Nat
  currentFrame : Nat
  deriving Repr, DecidableEq

/-- Rust `frame[signal_idx] = group_samples[within_group_idx]` for each member. -/
def placeSamples (frame : List Int) : List Nat → List Int → List Int
  | i :: is, s :: ss => placeSamples (frame.set i s) is ss
  | _, _ => frame

/-- The group loop of `MultiSignalReader::read_frame`.  `none` in the result
models the early `return Ok(vec![])` on a group that decoded zero samples
(EOF); groups visited before the early return keep their advanced state. -/
def readFrameLoop : List SignalGroup → List Int → Except String (Option (List Int) × List SignalGroup)
  | [], frame => .ok (some frame, [])
  | g :: gs, frame =>
      let r := groupRead g
      if r.1.length = 0 then .ok (none, r.2 :: gs)
      else if r.1.length ≠ g.signalIndices.length then
        .error "Incomplete frame read from signal group"
      else
        (readFrameLoop gs (placeSamples frame g.signalIndices r.1)).map
          fun p => (p.1, r.2 :: p.2)

/-- Rust `MultiSignalReader::read_frame`: an empty frame signals EOF; a full
frame bumps `current_frame`. -/
def readFrame (r : MSReader) : Except String (List Int × MSReader) :=
  match readFrameLoop r.groups (List.replicate r.numSignals 0) with
  | .error e => .error e
  | .ok (none, gs) => .ok ([], { r with groups := gs })
  | .ok (some frame, gs) =>
      .ok (frame, { r with groups := gs, currentFrame := r.currentFrame + 1 })

/-- Rust `MultiSignalReader::read_frames(count)`: collect frames, stopping early
at the first empty (EOF) frame. -/
def readFrames : MSReader → Nat → Except String (List (List Int) × MSReader)
  | r, 0 => .ok ([], r)
  | r, n + 1 =>
      match readFrame r with
      | .error e => .error e
      | .ok (f, r') =>
          if f.isEmpty then .ok ([], r')
          else (readFrames r' n).map fun p => (f :: p.1, p.2)

/-- The group loop of `MultiSignalReader::seek_to_frame`: each group's
position becomes `initialOffset + frame * bytesPerFrame(groupWidth)` and
its decoder is reset; a format without `bytes_per_frame` is an error. -/
def seekGroups : List SignalGroup → Nat → Except String (List SignalGroup)
  | [], _ => .ok []
  | g :: gs, frame =>
      match bytesPerFrameD g.decoder g.signalIndices.length with
      | some bpf =>
          (seekGroups gs frame).map fun gs' =>
            { g with pos := g.initialOffset + frame * bpf, decoder := resetD g.decoder } :: gs'
      | none => .error "Seeking not supported for this signal format"

/-- Rust `MultiSignalReader::seek_to_frame`. -/
def seekToFrame (r : MSReader) (frame : Nat) : Except String MSReader :=
  (seekGroups r.groups frame).map fun gs =>
    { r with groups := gs, currentFrame := frame }

/-- Format 16 decodes `min n (bytes/2)` samples and consumes two bytes per
sample. -/
lemma decode16_len : ∀ (n : Nat) (bytes : List Nat),
    (decode16 bytes n).1.length = min n (bytes.length / 2) ∧
      (decode16 bytes n).2 = bytes.drop (2 * min n (bytes.length / 2)) := by
  intro n
  induction n with
  | zero => intro bytes; simp [decode16]
  | succ n ih =>
      intro bytes
      rcases bytes with _ | ⟨b0, _ | ⟨b1, rest⟩⟩
      · simp [decode16]
      · simp [decode16]
      · obtain ⟨ih1, ih2⟩ := ih rest
        have hmin : min (n + 1) ((rest.length + 2) / 2) = min n (rest.length / 2) + 1 := by
          omega
        constructor
        · simp only [decode16, List.length_cons, hmin, List.length]
          simp [ih1]
        · simp only [decode16, List.length_cons, hmin]
          rw [show 2 * (min n (rest.length / 2) + 1)
                = 2 * min n (rest.length / 2) + 1 + 1 from by omega]
          simp only [List.drop_succ_cons]
          exact ih2

/-- Placing group samples into frame slots keeps the frame length. -/
lemma placeSamples_length : ∀ (ind : List Nat) (samples frame : List Int),
    (placeSamples frame ind samples).length = frame.length := by
  intro ind
  induction ind with
  | nil => intro samples frame; cases samples <;> rfl
  | cons i is ih =>
      intro samples frame
      cases samples with
      | nil => rfl
      | cons s ss => simp [placeSamples, ih]

/--
Counterexample to C6 as stated.  A single group of width 2 (format 16) over
a 2-byte file decodes 1 sample — fewer than `groupWidth` — and
`read_frame` raises an `InvalidHeader` error instead of returning the
claimed empty EOF result.
-/
theorem readFrame_short_group_counterexample :
    (decodeBuf .d16 [1, 0] 2).1.length = 1 ∧ (1 : Nat) < 2 ∧
      readFrame ⟨[⟨.d16, [1, 0], 0, 0, [0, 1]⟩], 2, 0⟩ =
        .error "Incomplete frame read from signal group" :=
  ⟨rfl, by decide, rfl⟩

/--
C6 (amended).  In `MultiSignalReader::read_frame`, a group decoding *zero*
samples is treated as EOF and yields an empty `Ok` result; a group decoding
more than zero but fewer than `groupWidth` samples raises the
`InvalidHeader` error "Incomplete frame read from signal group" — partial
frames are neither spliced nor silently dropped; a full group yields a
frame of length `numSignals`.  (Shown for a single-group format 16 reader.)
-/
theorem readFrame_group_shortage (file : List Nat) (pos ioff : Nat)
    (ind : List Nat) (ns cf : Nat) (hw : 0 < ind.length) :
    ((file.length - pos) / 2 = 0 →
        (readFrame ⟨[⟨.d16, file, pos, ioff, ind⟩], ns, cf⟩).toOption.map (·.1) =
          some []) ∧
      (0 < (file.length - pos) / 2 → (file.length - pos) / 2 < ind.length →
        readFrame ⟨[⟨.d16, file, pos, ioff, ind⟩], ns, cf⟩ =
          .error "Incomplete frame read from signal group") ∧
      (ind.length ≤ (file.length - pos) / 2 →
        (readFrame ⟨[⟨.d16, file, pos, ioff, ind⟩], ns, cf⟩).toOption.map
            (fun p => p.1.length) = some ns) := by
  have havail : (file.drop pos).length = file.length - pos := List.length_drop pos file
  obtain ⟨hcount, -⟩ := decode16_len ind.length (file.drop pos)
  rw [havail] at hcount
  refine ⟨?_, ?_, ?_⟩
  · intro h0
    simp only [readFrame, readFrameLoop, groupRead, decodeBuf]
    rw [if_pos (by rw [hcount, h0]; omega)]
    rfl
  · intro hpos hlt
    simp only [readFrame, readFrameLoop, groupRead, decodeBuf]
    rw [if_neg (by omega), if_pos (by omega)]
  · intro hge
    simp only [readFrame, readFrameLoop, groupRead, decodeBuf]
    rw [if_neg (by omega), if_neg (by simp only [hcount]; omega)]
    simp only [readFrameLoop, Except.map, Except.toOption, Option.map]
    rw [placeSamples_length, List.length_replicate]

/-- Witness for C6 (amended): a width-2 format 16 group over a 4-byte file
decodes a full frame of length `numSignals = 2`. -/
theorem readFrame_group_shortage_witness :
    (readFrame ⟨[⟨.d16, [1, 0, 2, 0], 0, 0, [0, 1]⟩], 2, 0⟩).toOption.map
      (fun p => p.1.length) = some 2 :=
  (readFrame_group_shortage [1, 0, 2, 0] 0 0 [0, 1] 2 0 (by decide)).2.2 (by decide)

/-- The frame a single-group format 16 reader produces at byte position
`p`: decode one sample per member signal and scatter them into the output
slots. -/
def mkFrame (file : List Nat) (p : Nat) (ind : List Nat) (ns : Nat) : List Int :=
  placeSamples (List.replicate ns 0) ind (decode16 (file.drop p) ind.length).1

/-- With at least one output slot, a frame is never the empty list. -/
lemma mkFrame_not_empty (file : List Nat) (p : Nat) (ind : List Nat)
    (ns : Nat) (hns : 0 < ns) : (mkFrame file p ind ns).isEmpty = false := by
  have hl : (mkFrame file p ind ns).length = ns := by
    unfold mkFrame
    rw [placeSamples_length, List.length_replicate]
  cases h : mkFrame file p ind ns with
  | nil => rw [h] at hl; simp at hl; omega
  | cons a l => rfl

/-- A full `read_frame` of a single-group format 16 reader at position `p`
with at least one frame of bytes available. -/
lemma readFrame_d16_full (file : List Nat) (p ioff : Nat) (ind : List Nat)
    (ns cf : Nat) (hw : 0 < ind.length)
    (hlen : p + 2 * ind.length ≤ file.length) :
    readFrame ⟨[⟨.d16, file, p, ioff, ind⟩], ns, cf⟩ =
      .ok (mkFrame file p ind ns,
        ⟨[⟨.d16, file, p + 2 * ind.length, ioff, ind⟩], ns, cf + 1⟩) := by
  have havail : (file.drop p).length = file.length - p := List.length_drop p file
  obtain ⟨hcount, hrem⟩ := decode16_len ind.length (file.drop p)
  have hmin : min ind.length ((file.drop p).length / 2) = ind.length := by
    rw [havail]; omega
  rw [hmin] at hcount hrem
  simp only [readFrame, readFrameLoop, groupRead, decodeBuf]
  rw [if_neg (by omega), if_neg (by simp only [hcount]; omega)]
  simp only [readFrameLoop, Except.map, mkFrame]
  have hpos : file.length - ((decode16 (file.drop p) ind.length).2).length
      = p + 2 * ind.length := by
    rw [hrem, List.drop_drop, List.length_drop]
    omega
  rw [hpos]

/-- One-step unfolding of `readFrames`. -/
lemma readFrames_succ (r : MSReader) (n : Nat) :
    readFrames r (n + 1) =
      match readFrame r with
      | .error e => .error e
      | .ok (f, r') =>
          if f.isEmpty then .ok ([], r')
          else (readFrames r' n).map fun p => (f :: p.1, p.2) := rfl

/-- Sequential reading of `k + 1` frames from a single-group format 16
reader: the frames are exactly the per-position frames at byte strides of
`2 * width`. -/
lemma readFrames_d16 (file : List Nat) (ioff : Nat) (ind : List Nat)
    (ns : Nat) (hw : 0 < ind.length) (hns : 0 < ns) :
    ∀ (k p cf : Nat), p + (k + 1) * (2 * ind.length) ≤ file.length →
      readFrames ⟨[⟨.d16, file, p, ioff, ind⟩], ns, cf⟩ (k + 1) =
        .ok ((List.range (k + 1)).map
            (fun j => mkFrame file (p + j * (2 * ind.length)) ind ns),
          ⟨[⟨.d16, file, p + (k + 1) * (2 * ind.length), ioff, ind⟩], ns,
            cf + (k + 1)⟩) := by
  intro k
  induction k with
  | zero =>
      intro p cf hlen
      rw [show (0 + 1) * (2 * ind.length) = 2 * ind.length from by ring] at hlen ⊢
      simp only [readFrames, readFrame_d16_full file p ioff ind ns cf hw (by omega)]
      rw [mkFrame_not_empty file p ind ns hns]
      simp [readFrames, Except.map, List.range_succ]
  | succ k ih =>
      intro p cf hlen
      have hstep : p + 2 * ind.length ≤ file.length := by nlinarith
      have hlen' : (p + 2 * ind.length) + (k + 1) * (2 * ind.length) ≤ file.length := by
        nlinarith
      rw [readFrames_succ, readFrame_d16_full file p ioff ind ns cf hw hstep]
      simp only [mkFrame_not_empty file p ind ns hns, Bool.false_eq_true, if_false]
      rw [ih (p + 2 * ind.length) (cf + 1) hlen']
      simp only [Except.map]
      have h1 : p + 2 * ind.length + (k + 1) * (2 * ind.length)
          = p + (k + 1 + 1) * (2 * ind.length) := by ring
      have h2 : cf + 1 + (k + 1) = cf + (k + 1 + 1) := by omega
      rw [h1, h2]
      have hframes : (List.range (k + 1 + 1)).map
            (fun j => mkFrame file (p + j * (2 * ind.length)) ind ns)
          = mkFrame file p ind ns :: (List.range (k + 1)).map
              (fun j => mkFrame file (p + 2 * ind.length + j * (2 * ind.length)) ind ns) := by
        rw [List.range_succ_eq_map, List.map_cons, List.map_map]
        refine congrArg₂ List.cons ?_ ?_
        · norm_num
        · refine List.map_congr_left fun j _ => ?_
          show mkFrame file (p + (j + 1) * (2 * ind.length)) ind ns
              = mkFrame file (p + 2 * ind.length + j * (2 * ind.length)) ind ns
          congr 1
          ring
      rw [hframes]

/--
Counterexample to C5 as stated.  Format 8 defines `bytesPerFrame(n)`
(`bytes_per_sample = 1`, so `bytes_per_frame(1) = 1`), yet seeking to frame
1 and reading does not reproduce sequential reading: over the difference
bytes `[1, 1]` from accumulator 0, sequential reading yields frames
`[1]`, `[2]`, but `seek_to_frame(1)` resets the accumulator and the frame
read there is `[1]`, not `[2]`.
-/
theorem seek_read_claim_counterexample :
    bytesPerFrameD (.d8 0) 1 = some 1 ∧
      ((readFrames ⟨[⟨.d8 0, [1, 1], 0, 0, [0]⟩], 1, 0⟩ 2).toOption.bind
          fun p => p.1.getLast?) = some [2] ∧
      ((seekToFrame ⟨[⟨.d8 0, [1, 1], 0, 0, [0]⟩], 1, 0⟩ 1).toOption.bind
          fun r => (readFrame r).toOption.map (·.1)) = some [1] ∧
      (some [2] : Option (List Int)) ≠ some [1] :=
  ⟨rfl, rfl, rfl, by decide⟩

/-- The last of the first `k + 1` sequential frames is the frame at stride
`k`. -/
lemma frames_getLast (file : List Nat) (ind : List Nat) (ns off k : Nat) :
    ((List.range (k + 1)).map
        (fun j => mkFrame file (off + j * (2 * ind.length)) ind ns)).getLast?
      = some (mkFrame file (off + k * (2 * ind.length)) ind ns) := by
  rw [List.range_succ, List.map_append]
  simp

/--
C5 (amended).  For a stateless fixed-width format (shown for format 16, any
group width and any byte offset), seeking a multi-signal reader to frame
`k` and then reading one frame returns exactly the same samples as reading
sequentially from position 0 through frame `k + 1` and taking the last
frame.  The property as originally claimed fails for the stateful format 8
decoder and for packed group widths that do not align with the packing
group, even though `bytesPerFrame` is defined there.
-/
theorem seek_then_read_eq_last_sequential_d16 (file : List Nat) (off : Nat)
    (ind : List Nat) (ns k : Nat) (hw : 0 < ind.length) (hns : 0 < ns)
    (hlen : off + (k + 1) * (2 * ind.length) ≤ file.length) :
    ((seekToFrame ⟨[⟨.d16, file, off, off, ind⟩], ns, 0⟩ k).toOption.bind
        fun r => (readFrame r).toOption.map (·.1)) =
      ((readFrames ⟨[⟨.d16, file, off, off, ind⟩], ns, 0⟩ (k + 1)).toOption.bind
        fun p => p.1.getLast?) ∧
      ((readFrames ⟨[⟨.d16, file, off, off, ind⟩], ns, 0⟩ (k + 1)).toOption.map
        fun p => p.1.length) = some (k + 1) := by
  have hexp : (k + 1) * (2 * ind.length) = k * (2 * ind.length) + 2 * ind.length := by
    ring
  have hseek : seekToFrame ⟨[⟨.d16, file, off, off, ind⟩], ns, 0⟩ k =
      .ok ⟨[⟨.d16, file, off + k * (2 * ind.length), off, ind⟩], ns, k⟩ := rfl
  have hread := readFrame_d16_full file (off + k * (2 * ind.length)) off ind ns k hw
    (by omega)
  have hseq := readFrames_d16 file off ind ns hw hns k off 0 hlen
  constructor
  · rw [hseek, hseq]
    simp only [Except.toOption, Option.bind, hread]
    rw [frames_getLast]
    rfl
  · rw [hseq]
    simp only [Except.toOption, Option.map, List.length_map, List.length_range]

/-- Witness for C5 (amended): a width-1 format 16 reader over a 4-byte
file, seeking to frame 1. -/
theorem seek_then_read_eq_last_sequential_d16_witness :
    (((seekToFrame ⟨[⟨.d16, [1, 0, 2, 0], 0, 0, [0]⟩], 1, 0⟩ 1).toOption.bind
        fun r => (readFrame r).toOption.map (·.1)) =
      ((readFrames ⟨[⟨.d16, [1, 0, 2, 0], 0, 0, [0]⟩], 1, 0⟩ 2).toOption.bind
        fun p => p.1.getLast?) ∧
      ((readFrames ⟨[⟨.d16, [1, 0, 2, 0], 0, 0, [0]⟩], 1, 0⟩ 2).toOption.map
        fun p => p.1.length) = some 2) ∧
      ((readFrames ⟨[⟨.d16, [1, 0, 2, 0], 0, 0, [0]⟩], 1, 0⟩ 2).toOption.bind
        fun p => p.1.getLast?) = some [2] :=
  ⟨seek_then_read_eq_last_sequential_d16 [1, 0, 2, 0] 0 [0] 1 1 (by decide)
      (by decide) (by decide),
    rfl⟩

/-! ## Segment coordinator (`record/segment_reader.rs`, `record/segment.rs`)

A segment is represented by its `num_samples`; the master header's specs
are a `List Nat`. -/

/-- The loop of `SegmentReader::find_segment_for_sample`: linear scan with a
running cumulative count, returning the first segment `i` with
`sample < cumulative + num_samples(i)`; `none` models the
"beyond the end of the record" error. -/
def findSegmentLoop : List Nat → Nat → Nat → Nat → Option Nat
  | [], _, _, _ => none
  | n :: rest, sample, i, cum =>
      if sample < cum + n then some i
      else findSegmentLoop rest sample (i + 1) (cum + n)

/-- Rust `SegmentReader::find_segment_for_sample`. -/
def findSegmentForSample (segs : List Nat) (sample : Nat) : Option Nat :=
  findSegmentLoop segs sample 0 0

/-- The offset computation of `SegmentReader::seek_to_sample`: the chosen
segment index together with the offset passed to the inner reader's
`seek_to_frame`.  `segment_start` is `0` for segment 0 and otherwise
`segment_info(segment_index - 1).map_or(0, |s| s.num_samples)` — the sample
count of the single previous segment. -/
def seekToSampleOffsets (segs : List Nat) (sample : Nat) : Option (Nat × Nat) :=
  match findSegmentForSample segs sample with
  | none => none
  | some i =>
      let segmentStart := if i = 0 then 0 else ((segs.get? (i - 1)).getD 0)
      some (i, sample - segmentStart)

/-- Rust `SegmentReader::total_samples`:
`segment_info(num_segments - 1).map_or(0, |s| s.num_samples)`. -/
def totalSamples (segs : List Nat) : Nat :=
  (segs.get? (segs.length - 1)).getD 0

/-- The cumulative sample count before segment `i` (the specification's
`cumulative[i]`). -/
def cumulativeBefore (segs : List Nat) (i : Nat) : Nat :=
  ((segs.take i).foldl (· + ·) 0)

/--
C2's theorem: the code evaluated at the claim's failing input.  For
segments with sample counts `[2, 2, 2]` and target sample 4, the scan picks
segment 2 (whose cumulative start is 4), but `seek_to_sample` subtracts
only the previous segment's count (2), seeking the inner reader to offset
2 instead of the claimed `4 − cumulative[2] = 0`.
-/
theorem seek_to_sample_wrong_offset :
    findSegmentForSample [2, 2, 2] 4 = some 2 ∧
      cumulativeBefore [2, 2, 2] 2 = 4 ∧
      seekToSampleOffsets [2, 2, 2] 4 = some (2, 2) ∧
      (2 : Nat) ≠ 4 - cumulativeBefore [2, 2, 2] 2 := by
  refine ⟨rfl, rfl, rfl, by decide⟩

/--
C10.  `SegmentReader::total_samples` returns the sample count of the final
segment alone, not the sum over all segments: for the specs `[2, 3]` it
returns 3, while the segment counts sum to 5.
-/
theorem total_samples_is_last_segment (segs : List Nat) (h : segs ≠ []) :
    totalSamples segs = segs.getLast h ∧
      totalSamples [2, 3] = 3 ∧ totalSamples [2, 3] ≠ [2, 3].sum := by
  refine ⟨?_, rfl, by decide⟩
  unfold totalSamples
  rw [List.getLast_eq_getElem]
  have hlt : segs.length - 1 < segs.length := by
    cases segs with
    | nil => exact absurd rfl h
    | cons a l => simp
  rw [List.get?_eq_get hlt]
  rfl

/-- Witness for C10: a two-segment record with counts `[2, 3]`. -/
theorem total_samples_is_last_segment_witness :
    totalSamples [2, 3] = [2, 3].getLast (by decide) ∧
      totalSamples [2, 3] = 3 ∧ totalSamples [2, 3] ≠ [2, 3].sum :=
  total_samples_is_last_segment [2, 3] (by decide)

/-! ## String utilities of the header parser

Rust's `str::split_whitespace`, `str::trim`, `str::split_once` and the
standard-library integer parsers, on `String`/`List Char`. -/

/-- Helper for `split_whitespace`: accumulate the current token (reversed)
and split at whitespace runs. -/
def splitWsAux : List Char → List Char → List String
  | [], acc => if acc.isEmpty then [] else [⟨acc.reverse⟩]
  | c :: cs, acc =>
      if c.isWhitespace then
        if acc.isEmpty then splitWsAux cs []
        else (⟨acc.reverse⟩ : String) :: splitWsAux cs []
      else splitWsAux cs (c :: acc)

/-- Rust `str::split_whitespace` collected into a list. -/
def splitWhitespace (s : String) : List String :=
  splitWsAux s.data []

/-- Rust `str::trim`. -/
def trimStr (s : String) : String :=
  ⟨((s.data.dropWhile Char.isWhitespace).reverse.dropWhile Char.isWhitespace).reverse⟩

/-- Helper for `str::split_once` on `List Char`. -/
def splitOnceAux : List Char → Char → Option (List Char × List Char)
  | [], _ => none
  | x :: xs, c =>
      if x = c then some ([], xs)
      else (splitOnceAux xs c).map fun p => (x :: p.1, p.2)

/-- Rust `str::split_once(c)`: split at the first occurrence of `c`. -/
def splitOnce? (s : String) (c : Char) : Option (String × String) :=
  (splitOnceAux s.data c).map fun p => (⟨p.1⟩, ⟨p.2⟩)

/-- Rust `str::contains(c)`. -/
def containsChar (s : String) (c : Char) : Bool :=
  s.data.contains c

/-- Rust `s.matches(c).count()`. -/
def countChar (s : String) (c : Char) : Nat :=
  s.data.count c

/-- Digits to their decimal value. -/
def digitsToNat (cs : List Char) : Nat :=
  cs.foldl (fun acc c => acc * 10 + (c.toNat - '0'.toNat)) 0

/-- Rust `str::parse::<uN>` (an optional leading `'+'`, at least one digit,
value within the type's range; anything else is an error). -/
def parseUnsigned? (s : String) (maxVal : Nat) : Option Nat :=
  let cs := match s.data with
    | '+' :: t => t
    | t => t
  if !cs.isEmpty && cs.all Char.isDigit && digitsToNat cs ≤ maxVal then
    some (digitsToNat cs)
  else none

/-- Rust `str::parse::<iN>` (an optional leading sign, at least one digit,
value within `[lo, hi]`). -/
def parseSigned? (s : String) (lo hi : Int) : Option Int :=
  let p : Int × List Char := match s.data with
    | '+' :: t => (1, t)
    | '-' :: t => (-1, t)
    | t => (1, t)
  if !p.2.isEmpty && p.2.all Char.isDigit then
    let v : Int := p.1 * digitsToNat p.2
    if lo ≤ v ∧ v ≤ hi then some v else none
  else none

/-- Rust `str::parse::<u8>`. -/
def parseU8? (s : String) : Option Nat := parseUnsigned? s 255

/-- Rust `str::parse::<u64>` / `str::parse::<usize>` (64-bit platform). -/
def parseU64? (s : String) : Option Nat := parseUnsigned? s (2 ^ 64 - 1)

/-- Rust `str::parse::<u32>`. -/
def parseU32? (s : String) : Option Nat := parseUnsigned? s (2 ^ 32 - 1)

/-- Rust `str::parse::<u16>`. -/
def parseU16? (s : String) : Option Nat := parseUnsigned? s (2 ^ 16 - 1)

/-- Rust `str::parse::<i32>`. -/
def parseI32? (s : String) : Option Int := parseSigned? s (-(2 ^ 31)) (2 ^ 31 - 1)

/-- Rust `str::parse::<i16>`. -/
def parseI16? (s : String) : Option Int := parseSigned? s (-(2 ^ 15)) (2 ^ 15 - 1)

/-- An exact decimal number `num / 10^exp`, the value of a parsed `f64`
token.  The header tokens are short decimals, which `f64` represents and
compares exactly for the sign tests (`> 0`, `≤ 0`) the parser performs;
keeping numerator and scale unreduced keeps every operation structural. -/
structure Decimal where
  num : Int
  exp : Nat
  deriving Repr, DecidableEq

/-- The sign tests the parser performs on a parsed number (the denominator
`10^exp` is positive, so the numerator carries the sign). -/
def Decimal.isPos (d : Decimal) : Bool := 0 < d.num

/-- Rust `str::parse::<f64>`, modelled exactly for plain decimal tokens
`[+|-] digits [. digits]` — the shapes the header grammar uses.  (The full
float grammar also accepts exponents and `inf`/`NaN` spellings, which no
header token of the claims exercises.) -/
def parseDecimal? (s : String) : Option Decimal :=
  let p : Int × List Char := match s.data with
    | '+' :: t => (1, t)
    | '-' :: t => (-1, t)
    | t => (1, t)
  match splitOnceAux p.2 '.' with
  | none =>
      if !p.2.isEmpty && p.2.all Char.isDigit then
        some ⟨p.1 * digitsToNat p.2, 0⟩
      else none
  | some (ip, fp) =>
      if (!ip.isEmpty || !fp.isEmpty) && ip.all Char.isDigit && fp.all Char.isDigit then
        some ⟨p.1 * (digitsToNat ip * 10 ^ fp.length + digitsToNat fp), fp.length⟩
      else none

/-- Rust `" "`-joining of the remaining tokens (`[&str]::join(" ")`). -/
def joinSpace : List String → String
  | [] => ""
  | [x] => x
  | x :: xs => x ++ " " ++ joinSpace xs

/-! ## Signal-spec optional fields (`header/signal_info.rs`) -/

/-- Rust `ParseState` of the signal-spec optional-field machine. -/
inductive SigParseState where
  | start | afterGain | afterResolution | afterZero
  | afterInitial | afterChecksum | afterBlockSize
  deriving Repr, DecidableEq

/-- Rust `FieldType` detected for a signal-spec token. -/
inductive SigFieldType where
  | gain | resolution | adcZero | initialValue | checksum | blockSize | description
  deriving Repr, DecidableEq

/-- The final gain parse of `SignalInfo::parse_gain_field`: non-empty, a
valid number, strictly positive. -/
def finishGain (gainPart : String) (baseline : Option Int) (units : Option String) :
    Except String (Option Decimal × Option Int × Option String) :=
  if gainPart = "" then .error "ADC gain is empty"
  else
    match parseDecimal? gainPart with
    | none => .error "Invalid ADC gain"
    | some g =>
        if !g.isPos then .error "ADC gain must be greater than zero"
        else .ok (some g, baseline, units)

/-- The `(baseline)` extraction of `SignalInfo::parse_gain_field`. -/
def parseGainBaseline (gainPart : String) (units : Option String) :
    Except String (Option Decimal × Option Int × Option String) :=
  match splitOnce? gainPart '(' with
  | some (g, afterParen) =>
      match splitOnce? afterParen ')' with
      | none => .error "Missing closing parenthesis in baseline"
      | some (b, _) =>
          match parseI32? b with
          | none => .error "Invalid baseline value"
          | some base => finishGain g (some base) units
  | none => finishGain gainPart none units

/-- Rust `SignalInfo::parse_gain_field`: `gain[(baseline)][/units]`. -/
def parseGainField (field : String) : Except String (Option Decimal × Option Int × Option String) :=
  let p : String × Option String :=
    match splitOnce? field '/' with
    | some (g, u) => (g, some u)
    | none => (field, none)
  match p.2 with
  | some u =>
      if u = "" then .error "Units field is empty"
      else parseGainBaseline p.1 (some u)
  | none => parseGainBaseline p.1 none

/-- Rust `SignalInfo::detect_field_type`. -/
def sigDetectFieldType (field : String) (state : SigParseState) :
    Except String SigFieldType :=
  match state with
  | .start =>
      if containsChar field '/' || containsChar field '(' then
        match parseGainField field with
        | .ok _ => .ok .gain
        | .error _ => .ok .description
      else
        match parseDecimal? field with
        | some val =>
            if val.isPos then .ok .gain
            else if (parseI32? field).isSome then .ok .blockSize
            else .ok .description
        | none =>
            if (parseI32? field).isSome then .ok .blockSize
            else .ok .description
  | .afterGain =>
      if (parseU8? field).isSome then .ok .resolution
      else .error ("Expected ADC resolution after gain, found '" ++ field ++ "'")
  | .afterResolution =>
      if (parseI32? field).isSome then .ok .adcZero
      else .error ("Expected ADC zero after resolution, found '" ++ field ++ "'")
  | .afterZero =>
      if (parseI32? field).isSome then .ok .initialValue
      else .error ("Expected initial value after ADC zero, found '" ++ field ++ "'")
  | .afterInitial =>
      if (parseI16? field).isSome then .ok .checksum
      else .error ("Expected checksum after initial value, found '" ++ field ++ "'")
  | .afterChecksum =>
      if (parseI32? field).isSome then .ok .blockSize
      else .error ("Expected block size after checksum, found '" ++ field ++ "'")
  | .afterBlockSize => .ok .description

/-- The optional fields of a signal-spec line (`OptionalFields` in the
source). -/
structure SigOF where
  adc_gain : Option Decimal := none
  baseline : Option Int := none
  units : Option String := none
  adc_resolution : Option Nat := none
  adc_zero : Option Int := none
  initial_value : Option Int := none
  checksum : Option Int := none
  block_size : Option Int := none
  description : Option String := none
  deriving Repr, DecidableEq

/-- The token loop of `SignalInfo::parse_optional_fields`. -/
def sigParseOptional : List String → SigParseState → SigOF → Except String SigOF
  | [], _, acc => .ok acc
  | f :: rest, state, acc =>
      match sigDetectFieldType f state with
      | .error e => .error e
      | .ok .gain =>
          match parseGainField f with
          | .error e => .error e
          | .ok (g, b, u) =>
              sigParseOptional rest .afterGain
                { acc with adc_gain := g, baseline := b, units := u }
      | .ok .resolution =>
          match parseU8? f with
          | none => .error "Invalid ADC resolution"
          | some v => sigParseOptional rest .afterResolution { acc with adc_resolution := some v }
      | .ok .adcZero =>
          match parseI32? f with
          | none => .error "Invalid ADC zero"
          | some v => sigParseOptional rest .afterZero { acc with adc_zero := some v }
      | .ok .initialValue =>
          match parseI32? f with
          | none => .error "Invalid initial value"
          | some v => sigParseOptional rest .afterInitial { acc with initial_value := some v }
      | .ok .checksum =>
          match parseI16? f with
          | none => .error "Invalid checksum"
          | some v => sigParseOptional rest .afterChecksum { acc with checksum := some v }
      | .ok .blockSize =>
          match parseI32? f with
          | none => .error "Invalid block size"
          | some v => sigParseOptional rest .afterBlockSize { acc with block_size := some v }
      | .ok .description =>
          .ok { acc with description := some (joinSpace (f :: rest)) }

/-- Rust `SignalInfo::parse_optional_fields`. -/
def parseOptionalFieldsSig (fields : List String) : Except String SigOF :=
  sigParseOptional fields .start {}

/--
Counterexample to C7 as stated.  After the gain token `"200"`, the token
`"abc"` fails the `u8` resolution parse and the parser *fails* with an
`InvalidHeader` error — it does not jump to the description state and
return `Ok` with description `"abc"`.
-/
theorem sig_optional_fields_counterexample :
    parseOptionalFieldsSig ["200", "abc"] =
      .error "Expected ADC resolution after gain, found 'abc'" := rfl

/--
C7 (amended).  When parsing the optional fields of a signal-spec line, a
token that fails to parse at a numeric slot's width (`u8` resolution after
gain, `i32` zero after resolution, `i32` initial after zero, `i16` checksum
after initial, `i32` blockSize after checksum) causes the parser to fail
with an `InvalidHeader` error naming the expected slot and the offending
token; only a token classified at the `start` state, or tokens after the
blockSize slot, can begin the description.
-/
theorem sig_numeric_slot_mismatch_errors (t : String) :
    ((parseU8? t).isSome = false →
        sigDetectFieldType t .afterGain =
          .error ("Expected ADC resolution after gain, found '" ++ t ++ "'")) ∧
      ((parseI32? t).isSome = false →
        sigDetectFieldType t .afterResolution =
          .error ("Expected ADC zero after resolution, found '" ++ t ++ "'")) ∧
      ((parseI32? t).isSome = false →
        sigDetectFieldType t .afterZero =
          .error ("Expected initial value after ADC zero, found '" ++ t ++ "'")) ∧
      ((parseI16? t).isSome = false →
        sigDetectFieldType t .afterInitial =
          .error ("Expected checksum after initial value, found '" ++ t ++ "'")) ∧
      ((parseI32? t).isSome = false →
        sigDetectFieldType t .afterChecksum =
          .error ("Expected block size after checksum, found '" ++ t ++ "'")) ∧
      (∀ rest : List String, (parseU8? t).isSome = false →
        parseOptionalFieldsSig ("200" :: t :: rest) =
          .error ("Expected ADC resolution after gain, found '" ++ t ++ "'")) := by
  have hAG : ∀ u : String, (parseU8? u).isSome = false →
      sigDetectFieldType u .afterGain =
        .error ("Expected ADC resolution after gain, found '" ++ u ++ "'") := by
    intro u h
    simp [sigDetectFieldType, h]
  refine ⟨hAG t, ?_, ?_, ?_, ?_, ?_⟩
  · intro h; simp [sigDetectFieldType, h]
  · intro h; simp [sigDetectFieldType, h]
  · intro h; simp [sigDetectFieldType, h]
  · intro h; simp [sigDetectFieldType, h]
  · intro rest h
    have h200 : sigDetectFieldType "200" SigParseState.start = .ok .gain := rfl
    have hg : parseGainField "200" = .ok (some ⟨200, 0⟩, none, none) := rfl
    simp only [parseOptionalFieldsSig, sigParseOptional, h200, hg, hAG t h]

/-- Witness for C7 (amended) at the token `"abc"` with a trailing token. -/
theorem sig_numeric_slot_mismatch_errors_witness :
    parseOptionalFieldsSig ["200", "abc", "x"] =
      .error "Expected ADC resolution after gain, found 'abc'" :=
  (sig_numeric_slot_mismatch_errors "abc").2.2.2.2.2 ["x"] (by decide)

/-! ## Record-line metadata (`header/metadata.rs`) -/

/-- Rust `ParseState` of the record-line optional-field machine (the source
derives `PartialOrd` from declaration order). -/
inductive MetaParseState where
  | start | afterFrequency | afterNumSamples | afterTime | afterDate
  deriving Repr, DecidableEq

/-- The declaration-order rank backing the source's `PartialOrd` tests. -/
def metaRank : MetaParseState → Nat
  | .start => 0
  | .afterFrequency => 1
  | .afterNumSamples => 2
  | .afterTime => 3
  | .afterDate => 4

/-- Rust `FieldType` detected for a record-line token. -/
inductive MetaFieldType where
  | frequency | numSamples | time | date
  deriving Repr, DecidableEq

/-- Rust `Metadata::detect_field_type`. -/
def metaDetectFieldType (field : String) (state : MetaParseState) :
    Except String MetaFieldType :=
  if containsChar field ':' then
    if 3 ≤ metaRank state then .error "Duplicate or out-of-order time field"
    else .ok .time
  else if countChar field '/' = 2 then
    if 4 ≤ metaRank state then .error "Duplicate or out-of-order date field"
    else .ok .date
  else if containsChar field '/' || containsChar field '(' then
    if 1 ≤ metaRank state then .error "Duplicate or out-of-order frequency field"
    else .ok .frequency
  else
    match state with
    | .start => .ok .frequency
    | .afterFrequency => .ok .numSamples
    | _ => .error ("Unexpected numeric field '" ++ field ++ "' after time/date")

/-- Rust `Metadata::parse_counter_frequency`: `counter_freq[(base_counter)]`.
(No positivity filtering happens here in the source.) -/
def parseCounterFrequency (field : String) : Except String (Option Decimal × Option Decimal) :=
  match splitOnce? field '(' with
  | some (cstr, afterParen) =>
      match splitOnce? afterParen ')' with
      | none => .error "Missing closing parenthesis in counter frequency"
      | some (bstr, _) =>
          match parseDecimal? cstr with
          | none => .error "Invalid counter frequency"
          | some cf =>
              match parseDecimal? bstr with
              | none => .error "Invalid base counter value"
              | some bc => .ok (some cf, some bc)
  | none =>
      match parseDecimal? field with
      | none => .error "Invalid counter frequency"
      | some cf => .ok (some cf, none)

/-- Rust `Metadata::parse_frequency_field` on a present token:
`samp[/counter[(base)]]`.  No sign check is performed on the sampling
frequency. -/
def parseFrequencyField (field : String) :
    Except String (Decimal × Option Decimal × Option Decimal) :=
  let p : String × Option String :=
    match splitOnce? field '/' with
    | some (s, c) => (s, some c)
    | none => (field, none)
  match parseDecimal? p.1 with
  | none => .error "Invalid sampling frequency"
  | some sf =>
      match p.2 with
      | none => .ok (sf, none, none)
      | some cstr =>
          match parseCounterFrequency cstr with
          | .error e => .error e
          | .ok (cf, bc) => .ok (sf, cf, bc)

/-- Split on every occurrence of `c`, keeping empty pieces. -/
def splitCharAux (c : Char) : List Char → List Char → List String
  | [], acc => [⟨acc.reverse⟩]
  | x :: xs, acc =>
      if x = c then (⟨acc.reverse⟩ : String) :: splitCharAux c xs []
      else splitCharAux c xs (x :: acc)

/-- Modelled from the spec: `chrono::NaiveTime::parse_from_str(s, "%H:%M:%S")`
(the `chrono` crate is outside `src/`): three `:`-separated all-digit
fields of one or two digits with `H < 24`, `M < 60`, `S < 60`.  No claim
reaches this parser (their record-line tokens contain no `:`). -/
def parseBaseTime (s : String) : Except String (Nat × Nat × Nat) :=
  match splitCharAux ':' s.data [] with
  | [h, m, sec] =>
      if (!h.data.isEmpty && h.data.length ≤ 2 && h.data.all Char.isDigit) &&
          (!m.data.isEmpty && m.data.length ≤ 2 && m.data.all Char.isDigit) &&
          (!sec.data.isEmpty && sec.data.length ≤ 2 && sec.data.all Char.isDigit) &&
          digitsToNat h.data < 24 && digitsToNat m.data < 60 && digitsToNat sec.data < 60 then
        .ok (digitsToNat h.data, digitsToNat m.data, digitsToNat sec.data)
      else .error ("Invalid base time '" ++ s ++ "', expected HH:MM:SS")
  | _ => .error ("Invalid base time '" ++ s ++ "', expected HH:MM:SS")

/-- Modelled from the spec: `chrono::NaiveDate::parse_from_str(s, "%d/%m/%Y")`
(the `chrono` crate is outside `src/`): three `/`-separated all-digit
fields with `1 ≤ D ≤ 31` and `1 ≤ M ≤ 12` (chrono additionally validates
real calendar dates).  No claim reaches this parser. -/
def parseBaseDate (s : String) : Except String (Nat × Nat × Nat) :=
  match splitCharAux '/' s.data [] with
  | [d, m, y] =>
      if (!d.data.isEmpty && d.data.length ≤ 2 && d.data.all Char.isDigit) &&
          (!m.data.isEmpty && m.data.length ≤ 2 && m.data.all Char.isDigit) &&
          (!y.data.isEmpty && y.data.all Char.isDigit) &&
          1 ≤ digitsToNat d.data && digitsToNat d.data ≤ 31 &&
          1 ≤ digitsToNat m.data && digitsToNat m.data ≤ 12 then
        .ok (digitsToNat d.data, digitsToNat m.data, digitsToNat y.data)
      else .error ("Invalid base date '" ++ s ++ "', expected DD/MM/YYYY")
  | _ => .error ("Invalid base date '" ++ s ++ "', expected DD/MM/YYYY")

/-- The optional record-line fields with their defaults
(`DEFAULT_SAMPLING_FREQUENCY = 250.0`). -/
structure MetaOF where
  sampling_frequency : Decimal := ⟨250, 0⟩
  counter_frequency : Option Decimal := none
  base_counter : Option Decimal := none
  num_samples : Option Nat := none
  base_time : Option (Nat × Nat × Nat) := none
  base_date : Option (Nat × Nat × Nat) := none
  deriving Repr, DecidableEq

/-- The token loop of `Metadata::parse_optional_fields`. -/
def metaParseOptional : List String → MetaParseState → MetaOF → Except String MetaOF
  | [], _, acc => .ok acc
  | f :: rest, state, acc =>
      match metaDetectFieldType f state with
      | .error e => .error e
      | .ok .frequency =>
          match parseFrequencyField f with
          | .error e => .error e
          | .ok (sf, cf, bc) =>
              metaParseOptional rest .afterFrequency
                { acc with
                    sampling_frequency := sf
                    counter_frequency := cf
                    base_counter := bc }
      | .ok .numSamples =>
          match parseU64? f with
          | none => .error "Invalid number of samples"
          | some n => metaParseOptional rest .afterNumSamples { acc with num_samples := some n }
      | .ok .time =>
          match parseBaseTime f with
          | .error e => .error e
          | .ok t => metaParseOptional rest .afterTime { acc with base_time := some t }
      | .ok .date =>
          match parseBaseDate f with
          | .error e => .error e
          | .ok d => metaParseOptional rest .afterDate { acc with base_date := some d }

/-- The record-name validation of `Metadata::parse_record_name`: non-empty,
ASCII letters, digits and underscores only. -/
def validateRecordName (name : String) (k : Option Nat) : Except String (String × Option Nat) :=
  if name = "" then .error "Record name is empty"
  else if name.data.all (fun c => c.isAlphanum || c = '_') then .ok (name, k)
  else .error ("Record name '" ++ name ++
    "' contains invalid characters, expected letters, digits, and underscores")

/-- Rust `Metadata::parse_record_name`: optional `/segments` suffix, then the
name must be non-empty and consist of ASCII letters, digits and
underscores.  (The segment count is parsed but not checked against 0.) -/
def parseRecordName (field : String) : Except String (String × Option Nat) :=
  match splitOnce? field '/' with
  | some (name, segStr) =>
      match parseU64? segStr with
      | none => .error "Invalid number of segments"
      | some k => validateRecordName name (some k)
  | none => validateRecordName field none

/-- Rust `Metadata` parsed from the record line. -/
structure Metadata where
  name : String
  num_segments : Option Nat
  num_signals : Nat
  sampling_frequency : Decimal
  counter_frequency : Option Decimal
  base_counter : Option Decimal
  num_samples : Option Nat
  base_time : Option (Nat × Nat × Nat)
  base_date : Option (Nat × Nat × Nat)
  deriving Repr, DecidableEq

/-- Rust `Metadata::from_record_line`.  Note: no check that `num_segments > 0`,
`num_signals > 0` or `sampling_frequency > 0` is performed anywhere on this
path. -/
def fromRecordLine (line : String) : Except String Metadata :=
  let line := trimStr line
  if line = "" then .error "Empty record line"
  else
    match splitWhitespace line with
    | [] => .error "Missing record name"
    | p0 :: rest =>
        match parseRecordName p0 with
        | .error e => .error e
        | .ok (name, numSegs) =>
            match rest with
            | [] => .error "Missing number of signals"
            | p1 :: remaining =>
                match parseU64? p1 with
                | none => .error "Invalid number of signals"
                | some ns =>
                    match metaParseOptional remaining .start {} with
                    | .error e => .error e
                    | .ok o =>
                        .ok ⟨name, numSegs, ns, o.sampling_frequency,
                          o.counter_frequency, o.base_counter, o.num_samples,
                          o.base_time, o.base_date⟩

/-! ## Header assembly (`header/common.rs`, `header/segment_info.rs`,
`SignalInfo::from_signal_line` and `parse_format_field`) -/

/-- A `SegmentInfo`: record name (or `"~"`) and sample count. -/
structure SegmentSpec where
  record_name : String
  num_samples : Nat
  deriving Repr, DecidableEq

/-- Rust `SegmentInfo::is_valid_record_name`. -/
def isValidSegmentName (name : String) : Bool :=
  name = "~" || name.data.all (fun c => c.isAlphanum || c = '_')

/-- Rust `SegmentInfo::from_segment_line`: exactly `recordName numSamples`. -/
def fromSegmentLine (line : String) : Except String SegmentSpec :=
  let line := trimStr line
  match splitWhitespace line with
  | [] => .error "Missing record name"
  | name :: rest =>
      if !isValidSegmentName name then
        .error ("Invalid record name '" ++ name ++
          "': must contain only letters, digits, underscores, or '~'")
      else
        match rest with
        | [] => .error "Missing number of samples"
        | nstr :: rest2 =>
            match parseU64? nstr with
            | none => .error "Invalid number of samples"
            | some n =>
                if !rest2.isEmpty then
                  .error "Extra fields found in segment specification line"
                else .ok ⟨name, n⟩

/-- The format codes `SignalFormat::try_from` accepts. -/
def validFormatCodes : List Nat :=
  [0, 8, 16, 24, 32, 61, 80, 160, 212, 310, 311, 508, 516, 524]

/-- Rust `SignalInfo::parse_format_field`:
`format[xsamples_per_frame][:skew][+byte_offset]`, peeled in the order
`'+'`, `':'`, `'x'`. -/
def parseFormatField (field : String) :
    Except String (Nat × Option Nat × Option Nat × Option Nat) :=
  let s0 : String × Option String :=
    match splitOnce? field '+' with
    | some (before, offStr) => (before, some offStr)
    | none => (field, none)
  match s0.2.map parseU64? with
  | some none => .error "Invalid byte offset"
  | s0off =>
      let byteOffset := (s0off.getD none)
      let s1 : String × Option String :=
        match splitOnce? s0.1 ':' with
        | some (before, skewStr) => (before, some skewStr)
        | none => (s0.1, none)
      match s1.2.map parseU32? with
      | some none => .error "Invalid skew"
      | s1skew =>
          let skew := (s1skew.getD none)
          let s2 : String × Option String :=
            match splitOnce? s1.1 'x' with
            | some (before, spfStr) => (before, some spfStr)
            | none => (s1.1, none)
          match s2.2.map parseU32? with
          | some none => .error "Invalid samples per frame"
          | s2spf =>
              let spf := (s2spf.getD none)
              if spf = some 0 then
                .error "Samples per frame must be greater than zero"
              else
                match parseU16? s2.1 with
                | none => .error "Invalid format code"
                | some code =>
                    if code ∈ validFormatCodes then
                      .ok (code, spf, skew, byteOffset)
                    else .error ("Unsupported signal format: " ++ toString code)

/-- A `SignalInfo` as produced by `from_signal_line`: the two mandatory
fields, the format-field modifiers and the optional fields. -/
structure SignalSpec where
  file_name : String
  format : Nat
  samples_per_frame : Option Nat
  skew : Option Nat
  byte_offset : Option Nat
  optional : SigOF
  deriving Repr, DecidableEq

/-- Rust `SignalInfo::from_signal_line`. -/
def fromSignalLine (line : String) : Except String SignalSpec :=
  let line := trimStr line
  match splitWhitespace line with
  | [] => .error "Missing file name"
  | [_] => .error "Missing format field"
  | fileName :: fmt :: remaining =>
      match parseFormatField fmt with
      | .error e => .error e
      | .ok (format, spf, skew, boff) =>
          match parseOptionalFieldsSig remaining with
          | .error e => .error e
          | .ok o => .ok ⟨fileName, format, spf, skew, boff, o⟩

/-- Rust `Specifications`: signal specs for single-segment records, segment
specs for multi-segment records. -/
inductive Specifications where
  | singleSegment (signals : List SignalSpec)
  | multiSegment (segments : List SegmentSpec)
  deriving Repr, DecidableEq

/-- A parsed `Header`. -/
structure Header where
  metadata : Metadata
  specifications : Specifications
  info_strings : List String
  deriving Repr, DecidableEq

/-- A trimmed line starting with `'#'`. -/
def startsWithHash (s : String) : Bool :=
  match s.data with
  | '#' :: _ => true
  | _ => false

/-- The record line is the first non-empty non-comment line. -/
def isRecordLine (l : String) : Bool :=
  let t := trimStr l
  !(t = "") && !startsWithHash t

/-- Skip to the record line, returning it and the following lines. -/
def dropToRecordLine : List String → Option (String × List String)
  | [] => none
  | l :: rest => if isRecordLine l then some (l, rest) else dropToRecordLine rest

/-- The spec-collection loop of `Header::from_lines`: gather up to `n`
parsed spec lines, skipping blank and comment lines; stopping early (on
exhausted input) returns the specs gathered so far. -/
def collectSpecs {α : Type} (parse : String → Except String α) :
    List String → Nat → Except String (List α × List String)
  | lines, 0 => .ok ([], lines)
  | [], _ + 1 => .ok ([], [])
  | l :: rest, n + 1 =>
      let t := trimStr l
      if t = "" || startsWithHash t then collectSpecs parse rest (n + 1)
      else
        match parse t with
        | .error e => .error e
        | .ok x => (collectSpecs parse rest n).map fun p => (x :: p.1, p.2)

/-- The trailing info strings: comment lines with their leading `'#'`s
stripped. -/
def infoStringsOf (lines : List String) : List String :=
  lines.filterMap fun l =>
    let t := trimStr l
    if startsWithHash t then some ⟨t.data.dropWhile (· = '#')⟩ else none

/-- Rust `Header::from_lines`. -/
def fromLines (lines : List String) : Except String Header :=
  match dropToRecordLine lines with
  | none => .error "Missing record line in header"
  | some (rl, rest) =>
      match fromRecordLine rl with
      | .error e => .error e
      | .ok md =>
          match md.num_segments with
          | some numSeg =>
              match collectSpecs fromSegmentLine rest numSeg with
              | .error e => .error e
              | .ok (segs, rem) =>
                  if segs.length < numSeg then
                    .error ("Expected " ++ toString numSeg ++
                      " segment specifications, found " ++ toString segs.length)
                  else .ok ⟨md, .multiSegment segs, infoStringsOf rem⟩
          | none =>
              match collectSpecs fromSignalLine rest md.num_signals with
              | .error e => .error e
              | .ok (sigs, rem) =>
                  if sigs.length < md.num_signals then
                    .error ("Expected " ++ toString md.num_signals ++
                      " signal specifications, found " ++ toString sigs.length)
                  else .ok ⟨md, .singleSegment sigs, infoStringsOf rem⟩

/--
C8's theorem: the code evaluated at the claim's failing inputs.  All three
record lines — `"rec/0 2"` (zero segments), `"rec 0"` (zero signals) and
`"rec 2 -100"` (negative sampling frequency) — are *accepted* by
`Metadata::from_record_line`; the first two are even accepted as complete
headers by `Header::from_lines`, and `"rec 2 -100"` is accepted as a
header once its two signal lines are present, with the negative frequency
stored.  No `InvalidHeader` error is raised anywhere on these paths,
although the repository's own tests (`tests/metadata_parser.rs`) assert
that each input fails with `InvalidHeader`.
-/
theorem record_line_validation_missing :
    fromRecordLine "rec/0 2" =
        .ok ⟨"rec", some 0, 2, ⟨250, 0⟩, none, none, none, none, none⟩ ∧
      fromRecordLine "rec 0" =
        .ok ⟨"rec", none, 0, ⟨250, 0⟩, none, none, none, none, none⟩ ∧
      fromRecordLine "rec 2 -100" =
        .ok ⟨"rec", none, 2, ⟨-100, 0⟩, none, none, none, none, none⟩ ∧
      fromLines ["rec/0 2"] =
        .ok ⟨⟨"rec", some 0, 2, ⟨250, 0⟩, none, none, none, none, none⟩,
          .multiSegment [], []⟩ ∧
      fromLines ["rec 0"] =
        .ok ⟨⟨"rec", none, 0, ⟨250, 0⟩, none, none, none, none, none⟩,
          .singleSegment [], []⟩ ∧
      (fromLines ["rec 2 -100", "s.dat 16", "s.dat 16"]).toOption.map
          (fun h => h.metadata) =
        some ⟨"rec", none, 2, ⟨-100, 0⟩, none, none, none, none, none⟩ :=
  ⟨rfl, rfl, rfl, rfl, rfl, rfl⟩

end Wfdb
